import Mathlib

/-!
# Verification of the GoBookingApp Ticket Inventory & Reservation Engine

A shallow embedding of the in-memory booking database (`database` package:
`Database`, `CreateUser`, `CreateBooking`, `CreateReservation`,
`ConfirmReservation`, `CancelReservation`, `GetReservation`, `EnqueueWait`,
`GetQueuePosition`, `ClaimNext`) together with theorems about its
capacity accounting, reservation lifecycle and wait-queue behaviour.

Modelling conventions:
* Wall-clock instants (`time.Time`) are natural numbers; every operation
  receives the current instant `now` explicitly.  `time.Now().After(t)` is
  `now > t`, `time.Now().Before(t)` is `now < t`, and the 15-second hold
  duration is the constant `holdDuration = 15`.
* UUIDs are modelled by a `nextId` counter in the state: each call of
  `uuid.New()` yields the current counter value and increments it, so
  generated identifiers are globally fresh, as UUIDs are.
* Go maps keyed by id are association lists; `delete` on a keyed map is
  `List.eraseP` on the id, lookup is `List.find?`.  The per-conference
  wait-queue map is a list of `(conferenceID, queue)` pairs.
* `float64` prices are rationals; ticket counts are `Int` (Go `int`).
* Each fallible operation returns `Except BookingError α × Database`:
  the Go `(value, error)` pair plus the (possibly mutated) state.
  Distinct `fmt.Errorf` messages are distinct `BookingError` kinds.
-/

/-- Mirrors `models.User`. -/
structure User where
  ID : Nat
  Name : String
  Email : String
  Created : Nat
deriving DecidableEq, Repr

/-- Mirrors `models.Conference`. -/
structure Conference where
  ID : Nat
  Name : String
  Location : String
  TotalTickets : Int
  AvailableTickets : Int
  Price : ℚ
  Date : Nat
deriving DecidableEq, Repr

/-- Mirrors `models.Booking`. -/
structure Booking where
  ID : Nat
  UserID : Nat
  ConferenceID : Nat
  TicketsBooked : Int
  TotalAmount : ℚ
  Status : String
  BookedAt : Nat
deriving DecidableEq, Repr

/-- Mirrors `models.SeatReservation`. -/
structure SeatReservation where
  ID : Nat
  UserID : Nat
  ConferenceID : Nat
  TicketCount : Int
  TotalAmount : ℚ
  ExpiresAt : Nat
  CreatedAt : Nat
deriving DecidableEq, Repr

/-- Mirrors `database.WaitEntry`. -/
structure WaitEntry where
  ID : Nat
  UserID : Nat
  ConferenceID : Nat
  TicketCount : Int
  EnqueuedAt : Nat
deriving DecidableEq, Repr

/-- Mirrors `database.Database` (the `sync.RWMutex` serialises operations,
so each operation is one atomic state transformation; `StartTime` is not
observable by any claim and is omitted).  `nextId` models the UUID source. -/
structure Database where
  Users : List User
  Conferences : List Conference
  Bookings : List Booking
  Reservations : List SeatReservation
  WaitQueues : List (Nat × List WaitEntry)
  nextId : Nat
deriving DecidableEq, Repr

/-- The error kinds produced by the engine, one per distinct
`fmt.Errorf` site (names follow the spec's taxonomy). -/
inductive BookingError where
  | notFound
  | insufficientInventory
  | duplicateActiveReservation
  | duplicateContact
  | expired
  | notYourTurn
deriving DecidableEq, Repr

/-- Equality of engine results is decidable (needed to evaluate concrete
runs inside proofs). -/
def Except.dEq {ε α : Type} [DecidableEq ε] [DecidableEq α] :
    (a b : Except ε α) → Decidable (a = b)
  | .error a1, .error b1 =>
    if h : a1 = b1 then isTrue (congrArg Except.error h)
    else isFalse (fun he => h (Except.error.inj he))
  | .error _, .ok _ => isFalse (fun he => Except.noConfusion he)
  | .ok _, .error _ => isFalse (fun he => Except.noConfusion he)
  | .ok a1, .ok b1 =>
    if h : a1 = b1 then isTrue (congrArg Except.ok h)
    else isFalse (fun he => h (Except.ok.inj he))

instance {ε α : Type} [DecidableEq ε] [DecidableEq α] : DecidableEq (Except ε α) :=
  Except.dEq

/-- `strings.ToLower(strings.TrimSpace(email))` as in `CreateUser`:
whitespace is stripped from both ends of the character sequence and the
result is lowercased character by character (Go operates on runes; the
ASCII subset is what the engine's callers exercise). -/
def normEmail (email : String) : String :=
  ⟨((email.data.dropWhile Char.isWhitespace).reverse.dropWhile
      Char.isWhitespace).reverse.map Char.toLower⟩

/-- Go map read `db.Conferences[conferenceID]` (with its `exists` flag). -/
def findConf (confs : List Conference) (conferenceID : Nat) : Option Conference :=
  confs.find? (fun c => c.ID == conferenceID)

/-- In-place mutation of the conference struct reached through the map:
every stored conference with the given id is transformed by `f`. -/
def updateConf (confs : List Conference) (conferenceID : Nat)
    (f : Conference → Conference) : List Conference :=
  confs.map (fun c => if c.ID == conferenceID then f c else c)

/-- Go map read `db.WaitQueues[conferenceID]` (missing key reads as `nil`). -/
def getQueue (w : List (Nat × List WaitEntry)) (conferenceID : Nat) : List WaitEntry :=
  match w.find? (fun p => p.1 == conferenceID) with
  | some p => p.2
  | none => []

/-- Go map write `db.WaitQueues[conferenceID] = q`. -/
def setQueue (w : List (Nat × List WaitEntry)) (conferenceID : Nat)
    (q : List WaitEntry) : List (Nat × List WaitEntry) :=
  match w with
  | [] => [(conferenceID, q)]
  | p :: rest =>
    if p.1 == conferenceID then (conferenceID, q) :: rest
    else p :: setQueue rest conferenceID q

/-- `database.CreateUser`: normalises the email, rejects a duplicate
normalised contact, otherwise stores the user with the normalised email. -/
def CreateUser (db : Database) (name email : String) (now : Nat) :
    Except BookingError User × Database :=
  let norm := normEmail email
  if db.Users.any (fun u => normEmail u.Email == norm) then
    (.error .duplicateContact, db)
  else
    let user : User := { ID := db.nextId, Name := name, Email := norm, Created := now }
    (.ok user, { db with Users := db.Users ++ [user], nextId := db.nextId + 1 })

/-- `database.CreateBooking`: direct booking against `AvailableTickets`. -/
def CreateBooking (db : Database) (userID conferenceID : Nat) (ticketCount : Int)
    (now : Nat) : Except BookingError Booking × Database :=
  match findConf db.Conferences conferenceID with
  | none => (.error .notFound, db)
  | some conference =>
    if conference.AvailableTickets < ticketCount then
      (.error .insufficientInventory, db)
    else
      let booking : Booking :=
        { ID := db.nextId, UserID := userID, ConferenceID := conferenceID,
          TicketsBooked := ticketCount,
          TotalAmount := conference.Price * (ticketCount : ℚ),
          Status := "confirmed", BookedAt := now }
      (.ok booking,
        { db with
          Conferences := updateConf db.Conferences conferenceID
            (fun c => { c with AvailableTickets := c.AvailableTickets - ticketCount }),
          Bookings := db.Bookings ++ [booking],
          nextId := db.nextId + 1 })

/-- `database.cleanupExpiredReservationsLocked`: deletes every reservation
with `now.After(ExpiresAt)`, i.e. keeps exactly those with `now ≤ ExpiresAt`. -/
def cleanupExpiredReservationsLocked (db : Database) (now : Nat) : Database :=
  { db with Reservations := db.Reservations.filter (fun r => now ≤ r.ExpiresAt) }

/-- The fixed hold duration (`15 * time.Second`). -/
def holdDuration : Nat := 15

/-- `database.CreateReservation`: purge, conference lookup, duplicate-active
check (`now.Before(ExpiresAt)`), reserved-ticket sum over **all** remaining
reservations of the conference, availability check, insert. -/
def CreateReservation (db : Database) (userID conferenceID : Nat) (ticketCount : Int)
    (now : Nat) : Except BookingError SeatReservation × Database :=
  let db := cleanupExpiredReservationsLocked db now
  match findConf db.Conferences conferenceID with
  | none => (.error .notFound, db)
  | some conference =>
    if db.Reservations.any (fun r =>
        r.UserID == userID && r.ConferenceID == conferenceID &&
        decide (now < r.ExpiresAt)) then
      (.error .duplicateActiveReservation, db)
    else
      let reservedTickets : Int :=
        ((db.Reservations.filter (fun r => r.ConferenceID == conferenceID)).map
          (fun r => r.TicketCount)).sum
      if conference.AvailableTickets - reservedTickets < ticketCount then
        (.error .insufficientInventory, db)
      else
        let res : SeatReservation :=
          { ID := db.nextId, UserID := userID, ConferenceID := conferenceID,
            TicketCount := ticketCount,
            TotalAmount := conference.Price * (ticketCount : ℚ),
            ExpiresAt := now + holdDuration, CreatedAt := now }
        (.ok res, { db with Reservations := db.Reservations ++ [res],
                            nextId := db.nextId + 1 })

/-- `database.ConfirmReservation`: lookup, expiry check (`now.After`,
deleting the stale entry on failure), booking creation, decrement of
`AvailableTickets`, removal of the reservation.  (When the referenced
conference is absent — unreachable from reachable states — `updateConf`
is a no-op where the Go code would dereference a nil pointer.) -/
def ConfirmReservation (db : Database) (reservationID : Nat) (now : Nat) :
    Except BookingError Booking × Database :=
  match db.Reservations.find? (fun r => r.ID == reservationID) with
  | none => (.error .notFound, db)
  | some reservation =>
    if now > reservation.ExpiresAt then
      (.error .expired,
        { db with Reservations := db.Reservations.eraseP (fun r => r.ID == reservationID) })
    else
      let booking : Booking :=
        { ID := db.nextId, UserID := reservation.UserID,
          ConferenceID := reservation.ConferenceID,
          TicketsBooked := reservation.TicketCount,
          TotalAmount := reservation.TotalAmount,
          Status := "confirmed", BookedAt := now }
      (.ok booking,
        { db with
          Conferences := updateConf db.Conferences reservation.ConferenceID
            (fun c => { c with AvailableTickets := c.AvailableTickets - reservation.TicketCount }),
          Bookings := db.Bookings ++ [booking],
          Reservations := db.Reservations.eraseP (fun r => r.ID == reservationID),
          nextId := db.nextId + 1 })

/-- `database.CancelReservation`. -/
def CancelReservation (db : Database) (reservationID : Nat) :
    Except BookingError Unit × Database :=
  if db.Reservations.any (fun r => r.ID == reservationID) then
    (.ok (), { db with Reservations := db.Reservations.eraseP (fun r => r.ID == reservationID) })
  else
    (.error .notFound, db)

/-- `database.GetReservation`: purge, then read. -/
def GetReservation (db : Database) (reservationID : Nat) (now : Nat) :
    Except BookingError SeatReservation × Database :=
  let db := cleanupExpiredReservationsLocked db now
  match db.Reservations.find? (fun r => r.ID == reservationID) with
  | none => (.error .notFound, db)
  | some r => (.ok r, db)

/-- The loop body of `EnqueueWait`: walks the queue; at the first entry of
`userID` updates its `TicketCount` in place and reports the 1-based
position, otherwise reports `none`. -/
def enqueueUpdate (userID : Nat) (ticketCount : Int) :
    List WaitEntry → Option (Nat × List WaitEntry)
  | [] => none
  | e :: rest =>
    if e.UserID == userID then
      some (1, { e with TicketCount := ticketCount } :: rest)
    else
      (enqueueUpdate userID ticketCount rest).map (fun pr => (pr.1 + 1, e :: pr.2))

/-- `database.EnqueueWait`: duplicate entries update in place keeping the
earliest slot; otherwise a fresh entry is appended and its 1-based
position (the new length) returned.  Never fails. -/
def EnqueueWait (db : Database) (userID conferenceID : Nat) (ticketCount : Int)
    (now : Nat) : Nat × Database :=
  let q := getQueue db.WaitQueues conferenceID
  match enqueueUpdate userID ticketCount q with
  | some (pos, q') =>
    (pos, { db with WaitQueues := setQueue db.WaitQueues conferenceID q' })
  | none =>
    let entry : WaitEntry :=
      { ID := db.nextId, UserID := userID, ConferenceID := conferenceID,
        TicketCount := ticketCount, EnqueuedAt := now }
    (q.length + 1,
      { db with WaitQueues := setQueue db.WaitQueues conferenceID (q ++ [entry]),
                nextId := db.nextId + 1 })

/-- The loop of `GetQueuePosition`: 1-based index of the first entry of
`userID`, or 0 when absent. -/
def queuePos (userID : Nat) : List WaitEntry → Nat
  | [] => 0
  | e :: rest =>
    if e.UserID == userID then 1
    else
      let p := queuePos userID rest
      if p = 0 then 0 else p + 1

/-- `database.GetQueuePosition` (read-only). -/
def GetQueuePosition (db : Database) (userID conferenceID : Nat) : Nat :=
  queuePos userID (getQueue db.WaitQueues conferenceID)

/-- `database.ClaimNext`: purge, head check, conference lookup, reserved
sum over **unexpired** reservations (`now.Before(ExpiresAt)`), availability
check, reservation insert and queue-head removal. -/
def ClaimNext (db : Database) (userID conferenceID : Nat) (now : Nat) :
    Except BookingError SeatReservation × Database :=
  let db := cleanupExpiredReservationsLocked db now
  let q := getQueue db.WaitQueues conferenceID
  match q with
  | [] => (.error .notYourTurn, db)
  | head :: rest =>
    if head.UserID ≠ userID then (.error .notYourTurn, db)
    else
      match findConf db.Conferences conferenceID with
      | none => (.error .notFound, db)
      | some conf =>
        let reserved : Int :=
          ((db.Reservations.filter (fun r =>
              r.ConferenceID == conferenceID && decide (now < r.ExpiresAt))).map
            (fun r => r.TicketCount)).sum
        let available := conf.AvailableTickets - reserved
        let need := head.TicketCount
        if available < need then (.error .insufficientInventory, db)
        else
          let res : SeatReservation :=
            { ID := db.nextId, UserID := userID, ConferenceID := conferenceID,
              TicketCount := need, TotalAmount := conf.Price * (need : ℚ),
              ExpiresAt := now + holdDuration, CreatedAt := now }
          (.ok res,
            { db with Reservations := db.Reservations ++ [res],
                      WaitQueues := setQueue db.WaitQueues conferenceID rest,
                      nextId := db.nextId + 1 })

/-- `NewDatabase`/`addSampleData`: the fixed seed catalog (conference ids
`conf-1`, `conf-2`, `conf-3` rendered as 1, 2, 3; dates are immaterial). -/
def initialDatabase : Database :=
  { Users := []
    Conferences :=
      [ { ID := 1, Name := "Go Conference 2024", Location := "San Francisco",
          TotalTickets := 100, AvailableTickets := 100, Price := 29999/100, Date := 0 },
        { ID := 2, Name := "DevOps Summit", Location := "New York",
          TotalTickets := 75, AvailableTickets := 75, Price := 39999/100, Date := 0 },
        { ID := 3, Name := "Cloud Native Expo", Location := "Seattle",
          TotalTickets := 150, AvailableTickets := 150, Price := 19999/100, Date := 0 } ]
    Bookings := []
    Reservations := []
    WaitQueues := []
    nextId := 0 }

/-- The state-touching engine operations (the HTTP layer exposes exactly
these; pure reads such as `GetQueuePosition` never change state).
`ResetDatabase` is not reachable from any route and is omitted. -/
inductive Op where
  | createUser (name email : String)
  | createBooking (userID conferenceID : Nat) (ticketCount : Int)
  | createReservation (userID conferenceID : Nat) (ticketCount : Int)
  | confirmReservation (reservationID : Nat)
  | cancelReservation (reservationID : Nat)
  | getReservation (reservationID : Nat)
  | enqueueWait (userID conferenceID : Nat) (ticketCount : Int)
  | claimNext (userID conferenceID : Nat)
deriving DecidableEq, Repr

/-- The state transformation of one operation at instant `now`. -/
def applyOp (op : Op) (now : Nat) (db : Database) : Database :=
  match op with
  | .createUser name email => (CreateUser db name email now).2
  | .createBooking u c n => (CreateBooking db u c n now).2
  | .createReservation u c n => (CreateReservation db u c n now).2
  | .confirmReservation id => (ConfirmReservation db id now).2
  | .cancelReservation id => (CancelReservation db id).2
  | .getReservation id => (GetReservation db id now).2
  | .enqueueWait u c n => (EnqueueWait db u c n now).2
  | .claimNext u c => (ClaimNext db u c now).2

/-- The error (if any) reported by one operation at instant `now`. -/
def opError (op : Op) (now : Nat) (db : Database) : Option BookingError :=
  match op with
  | .createUser name email =>
    match (CreateUser db name email now).1 with
    | .error e => some e | .ok _ => none
  | .createBooking u c n =>
    match (CreateBooking db u c n now).1 with
    | .error e => some e | .ok _ => none
  | .createReservation u c n =>
    match (CreateReservation db u c n now).1 with
    | .error e => some e | .ok _ => none
  | .confirmReservation id =>
    match (ConfirmReservation db id now).1 with
    | .error e => some e | .ok _ => none
  | .cancelReservation id =>
    match (CancelReservation db id).1 with
    | .error e => some e | .ok _ => none
  | .getReservation id =>
    match (GetReservation db id now).1 with
    | .error e => some e | .ok _ => none
  | .enqueueWait _ _ _ => none
  | .claimNext u c =>
    match (ClaimNext db u c now).1 with
    | .error e => some e | .ok _ => none

/-- Runs a list of timestamped operations in order. -/
def runOps : List (Nat × Op) → Database → Database
  | [], db => db
  | (t, op) :: rest, db => runOps rest (applyOp op t db)

/-- Well-formed requests: the routing layer (`binding:"required,min=1"`)
admits only positive ticket counts. -/
def Op.wfB : Op → Bool
  | .createBooking _ _ n => 1 ≤ n
  | .createReservation _ _ n => 1 ≤ n
  | .enqueueWait _ _ n => 1 ≤ n
  | _ => true

/-- Whether the operation is a wait-queue claim. -/
def Op.isClaim : Op → Bool
  | .claimNext _ _ => true
  | _ => false

/-- Timestamps of a trace are non-decreasing and bounded below by `t0`
(wall-clock time never runs backwards). -/
def chronFrom (t0 : Nat) : List (Nat × Op) → Bool
  | [] => true
  | (t, _) :: rest => t0 ≤ t && chronFrom t rest

/-- The instant reached after a trace starting at `t0`. -/
def endTime (t0 : Nat) : List (Nat × Op) → Nat
  | [] => t0
  | (t, _) :: rest => endTime t rest

/-- Sum of `TicketsBooked` over the bookings of one conference in a list. -/
def sumB (bs : List Booking) (conferenceID : Nat) : Int :=
  ((bs.filter (fun b => b.ConferenceID == conferenceID)).map
    (fun b => b.TicketsBooked)).sum

/-- Sum of `TicketsBooked` over the bookings of one conference. -/
def sumBookingsFor (db : Database) (conferenceID : Nat) : Int :=
  sumB db.Bookings conferenceID

/-- Sum of `TicketCount` over the **unexpired** (`now < ExpiresAt`)
reservations of one conference. -/
def activeSum (db : Database) (conferenceID : Nat) (now : Nat) : Int :=
  ((db.Reservations.filter (fun r =>
      r.ConferenceID == conferenceID && decide (now < r.ExpiresAt))).map
    (fun r => r.TicketCount)).sum

/-- Sum of `TicketCount` over the reservations of one conference that
survive the purge at `now` (those with `now ≤ ExpiresAt`). -/
def postPurgeSum (db : Database) (conferenceID : Nat) (now : Nat) : Int :=
  ((db.Reservations.filter (fun r =>
      r.ConferenceID == conferenceID && decide (now ≤ r.ExpiresAt))).map
    (fun r => r.TicketCount)).sum

/-- `AvailableTickets` of a conference, when it exists. -/
def confAvail (db : Database) (conferenceID : Nat) : Option Int :=
  (findConf db.Conferences conferenceID).map (fun c => c.AvailableTickets)

/-- Number of unexpired reservations held by one requester for one
conference. -/
def activeCount (db : Database) (userID conferenceID : Nat) (now : Nat) : Nat :=
  (db.Reservations.filter (fun r =>
    r.UserID == userID && r.ConferenceID == conferenceID &&
    decide (now < r.ExpiresAt))).length

/-! ## Helper lemmas about the embedded map and queue primitives -/

theorem getQueue_setQueue_self (w : List (Nat × List WaitEntry)) (cid : Nat)
    (q : List WaitEntry) : getQueue (setQueue w cid q) cid = q := by
  induction w with
  | nil => simp [getQueue, setQueue, List.find?]
  | cons p rest ih =>
    by_cases h : p.1 = cid
    · simp [getQueue, setQueue, h, List.find?]
    · simp only [setQueue]
      rw [if_neg (by simpa using h)]
      simp only [getQueue, List.find?]
      rw [show (p.1 == cid) = false by simpa using h]
      exact ih

theorem getQueue_setQueue_ne (w : List (Nat × List WaitEntry)) (cid cid' : Nat)
    (q : List WaitEntry) (h : cid' ≠ cid) :
    getQueue (setQueue w cid q) cid' = getQueue w cid' := by
  induction w with
  | nil =>
    simp only [setQueue, getQueue, List.find?]
    rw [show (cid == cid') = false by simpa using (Ne.symm h)]
  | cons p rest ih =>
    by_cases hp : p.1 = cid
    · simp only [setQueue]
      rw [if_pos (by simpa using hp)]
      simp only [getQueue, List.find?]
      rw [show (cid == cid') = false by simpa using (Ne.symm h)]
      rw [show (p.1 == cid') = false by simpa [hp] using (Ne.symm h)]
    · simp only [setQueue]
      rw [if_neg (by simpa using hp)]
      simp only [getQueue, List.find?]
      cases hpc : (p.1 == cid') with
      | true => rfl
      | false => exact ih

theorem mem_setQueue (w : List (Nat × List WaitEntry)) (cid : Nat)
    (q : List WaitEntry) :
    ∀ p ∈ setQueue w cid q, p ∈ w ∨ p = (cid, q) := by
  induction w with
  | nil => intro p hp; simp [setQueue] at hp; right; exact hp
  | cons hd rest ih =>
    intro p hp
    simp only [setQueue] at hp
    by_cases h : (hd.1 == cid)
    · rw [if_pos h] at hp
      rcases List.mem_cons.mp hp with h1 | h1
      · right; exact h1
      · left; exact List.mem_cons_of_mem _ h1
    · rw [if_neg h] at hp
      rcases List.mem_cons.mp hp with h1 | h1
      · left; exact h1 ▸ List.mem_cons_self _ _
      · rcases ih p h1 with h2 | h2
        · left; exact List.mem_cons_of_mem _ h2
        · right; exact h2

theorem enqueueUpdate_mem (u : Nat) (tc : Int) (q q' : List WaitEntry) (pos : Nat)
    (h : enqueueUpdate u tc q = some (pos, q')) :
    ∀ e' ∈ q', e' ∈ q ∨ ∃ e ∈ q, e' = { e with TicketCount := tc } := by
  induction q generalizing pos q' with
  | nil => simp [enqueueUpdate] at h
  | cons e rest ih =>
    simp only [enqueueUpdate] at h
    by_cases he : (e.UserID == u)
    · rw [if_pos he] at h
      injection h with h'
      injection h' with h1 h2
      subst h2
      intro e' he'
      rcases List.mem_cons.mp he' with h3 | h3
      · right; exact ⟨e, List.mem_cons_self _ _, h3⟩
      · left; exact List.mem_cons_of_mem _ h3
    · rw [if_neg he] at h
      cases hrec : enqueueUpdate u tc rest with
      | none => rw [hrec] at h; simp at h
      | some pr =>
        rw [hrec] at h
        simp only [Option.map_some'] at h
        injection h with h'
        injection h' with h1 h2
        subst h2
        intro e' he'
        rcases List.mem_cons.mp he' with h3 | h3
        · left; exact h3 ▸ List.mem_cons_self _ _
        · rcases ih pr.2 pr.1 (by rw [hrec]) e' h3 with h4 | h4
          · left; exact List.mem_cons_of_mem _ h4
          · right; obtain ⟨e0, he0, heq⟩ := h4
            exact ⟨e0, List.mem_cons_of_mem _ he0, heq⟩

theorem sumB_append (l1 l2 : List Booking) (c : Nat) :
    sumB (l1 ++ l2) c = sumB l1 c + sumB l2 c := by
  simp [sumB, List.filter_append]

theorem sumB_single (b : Booking) (c : Nat) :
    sumB [b] c = if b.ConferenceID = c then b.TicketsBooked else 0 := by
  by_cases h : b.ConferenceID = c
  · simp [sumB, List.filter, h]
  · rw [if_neg h]
    simp only [sumB, List.filter]
    rw [show (b.ConferenceID == c) = false by simpa using h]
    simp

/-! ## The capacity invariant (C1) -/

/-- The inductive state invariant behind the capacity claim: every
conference's `AvailableTickets` is its `TotalTickets` minus the booked
tickets of that conference, and every stored ticket count is positive. -/
def CapacityInv (db : Database) : Prop :=
  (∀ c ∈ db.Conferences, c.AvailableTickets = c.TotalTickets - sumB db.Bookings c.ID) ∧
  (∀ b ∈ db.Bookings, 1 ≤ b.TicketsBooked) ∧
  (∀ r ∈ db.Reservations, 1 ≤ r.TicketCount) ∧
  (∀ p ∈ db.WaitQueues, ∀ e ∈ p.2, 1 ≤ e.TicketCount)

/-- Appending one booking for conference `cid` while decrementing that
conference's counter by the booked amount preserves the accounting
equation. -/
theorem capacity_update (confs : List Conference) (bs : List Booking)
    (cid : Nat) (n : Int) (bk : Booking)
    (hbc : bk.ConferenceID = cid) (hbn : bk.TicketsBooked = n)
    (hconfs : ∀ c ∈ confs, c.AvailableTickets = c.TotalTickets - sumB bs c.ID) :
    ∀ c ∈ updateConf confs cid
        (fun c => { c with AvailableTickets := c.AvailableTickets - n }),
      c.AvailableTickets = c.TotalTickets - sumB (bs ++ [bk]) c.ID := by
  intro c hc
  simp only [updateConf] at hc
  obtain ⟨e, he, rfl⟩ := List.mem_map.mp hc
  by_cases h : (e.ID == cid)
  · rw [if_pos h]
    have hid : e.ID = cid := by simpa using h
    rw [sumB_append, sumB_single]
    simp only
    rw [if_pos (by rw [hbc, hid]), hconfs e he, hid, hbn]
    ring
  · rw [if_neg h]
    have hid : e.ID ≠ cid := by simpa using h
    rw [sumB_append, sumB_single, if_neg (by rw [hbc]; exact fun hh => hid hh.symm)]
    rw [hconfs e he]
    ring

theorem mem_getQueue (w : List (Nat × List WaitEntry)) (c : Nat) :
    ∀ e ∈ getQueue w c, ∃ p ∈ w, e ∈ p.2 := by
  unfold getQueue
  cases hf : w.find? (fun p => p.1 == c) with
  | none => simp
  | some p =>
    intro e he
    exact ⟨p, List.mem_of_find?_eq_some hf, he⟩

theorem capacityInv_cleanup (db : Database) (t : Nat) (h : CapacityInv db) :
    CapacityInv (cleanupExpiredReservationsLocked db t) := by
  refine ⟨h.1, h.2.1, ?_, h.2.2.2⟩
  intro r hr
  exact h.2.2.1 r (List.mem_of_mem_filter hr)

theorem capacityInv_CreateUser (db : Database) (name email : String) (t : Nat)
    (h : CapacityInv db) : CapacityInv (CreateUser db name email t).2 := by
  simp only [CreateUser]
  split
  · exact h
  · exact h

theorem capacityInv_CreateBooking (db : Database) (u c : Nat) (n : Int) (t : Nat)
    (hn : 1 ≤ n) (h : CapacityInv db) : CapacityInv (CreateBooking db u c n t).2 := by
  simp only [CreateBooking]
  split
  · exact h
  · split
    · exact h
    · refine ⟨?_, ?_, h.2.2.1, h.2.2.2⟩
      · exact capacity_update db.Conferences db.Bookings c n _ rfl rfl h.1
      · intro b hb
        rcases List.mem_append.mp hb with h1 | h1
        · exact h.2.1 b h1
        · simp only [List.mem_singleton] at h1
          subst h1
          exact hn

theorem capacityInv_CreateReservation (db : Database) (u c : Nat) (n : Int) (t : Nat)
    (hn : 1 ≤ n) (h : CapacityInv db) : CapacityInv (CreateReservation db u c n t).2 := by
  have h1 : CapacityInv (cleanupExpiredReservationsLocked db t) :=
    capacityInv_cleanup db t h
  simp only [CreateReservation]
  split
  · exact h1
  · split
    · exact h1
    · split
      · exact h1
      · refine ⟨h1.1, h1.2.1, ?_, h1.2.2.2⟩
        intro r hr
        rcases List.mem_append.mp hr with h2 | h2
        · exact h1.2.2.1 r h2
        · simp only [List.mem_singleton] at h2
          subst h2
          exact hn

theorem capacityInv_ConfirmReservation (db : Database) (id t : Nat)
    (h : CapacityInv db) : CapacityInv (ConfirmReservation db id t).2 := by
  simp only [ConfirmReservation]
  split
  · exact h
  · next r hfind =>
    split
    · refine ⟨h.1, h.2.1, ?_, h.2.2.2⟩
      intro r' hr'
      exact h.2.2.1 r' ((List.eraseP_sublist _).subset hr')
    · refine ⟨?_, ?_, ?_, h.2.2.2⟩
      · exact capacity_update db.Conferences db.Bookings r.ConferenceID r.TicketCount
          _ rfl rfl h.1
      · intro b hb
        rcases List.mem_append.mp hb with h1 | h1
        · exact h.2.1 b h1
        · simp only [List.mem_singleton] at h1
          subst h1
          exact h.2.2.1 r (List.mem_of_find?_eq_some hfind)
      · intro r' hr'
        exact h.2.2.1 r' ((List.eraseP_sublist _).subset hr')

theorem capacityInv_CancelReservation (db : Database) (id : Nat)
    (h : CapacityInv db) : CapacityInv (CancelReservation db id).2 := by
  simp only [CancelReservation]
  split
  · refine ⟨h.1, h.2.1, ?_, h.2.2.2⟩
    intro r' hr'
    exact h.2.2.1 r' ((List.eraseP_sublist _).subset hr')
  · exact h

theorem capacityInv_GetReservation (db : Database) (id t : Nat)
    (h : CapacityInv db) : CapacityInv (GetReservation db id t).2 := by
  have h1 := capacityInv_cleanup db t h
  simp only [GetReservation]
  split
  · exact h1
  · exact h1

theorem capacityInv_EnqueueWait (db : Database) (u c : Nat) (n : Int) (t : Nat)
    (hn : 1 ≤ n) (h : CapacityInv db) : CapacityInv (EnqueueWait db u c n t).2 := by
  simp only [EnqueueWait]
  split
  · next pos q' hupd =>
    refine ⟨h.1, h.2.1, h.2.2.1, ?_⟩
    intro p hp
    rcases mem_setQueue db.WaitQueues c q' p hp with h1 | h1
    · exact h.2.2.2 p h1
    · subst h1
      intro e' he'
      rcases enqueueUpdate_mem u n (getQueue db.WaitQueues c) q' pos hupd e' he' with
        h2 | ⟨e0, he0, heq⟩
      · obtain ⟨p0, hp0, hep0⟩ := mem_getQueue db.WaitQueues c e' h2
        exact h.2.2.2 p0 hp0 e' hep0
      · subst heq
        exact hn
  · refine ⟨h.1, h.2.1, h.2.2.1, ?_⟩
    intro p hp
    rcases mem_setQueue db.WaitQueues c _ p hp with h1 | h1
    · exact h.2.2.2 p h1
    · subst h1
      intro e' he'
      rcases List.mem_append.mp he' with h2 | h2
      · obtain ⟨p0, hp0, hep0⟩ := mem_getQueue db.WaitQueues c e' h2
        exact h.2.2.2 p0 hp0 e' hep0
      · simp only [List.mem_singleton] at h2
        subst h2
        exact hn

theorem capacityInv_ClaimNext (db : Database) (u c : Nat) (t : Nat)
    (h : CapacityInv db) : CapacityInv (ClaimNext db u c t).2 := by
  have h1 := capacityInv_cleanup db t h
  simp only [ClaimNext]
  split
  · exact h1
  · next head rest hq =>
    split
    · exact h1
    · split
      · exact h1
      · split
        · exact h1
        · refine ⟨h1.1, h1.2.1, ?_, ?_⟩
          · intro r hr
            rcases List.mem_append.mp hr with h2 | h2
            · exact h1.2.2.1 r h2
            · simp only [List.mem_singleton] at h2
              subst h2
              have hh : head ∈ getQueue (cleanupExpiredReservationsLocked db t).WaitQueues c := by
                rw [hq]
                exact List.mem_cons_self _ _
              obtain ⟨p0, hp0, hep0⟩ :=
                mem_getQueue (cleanupExpiredReservationsLocked db t).WaitQueues c head hh
              exact h1.2.2.2 p0 hp0 head hep0
          · intro p hp
            rcases mem_setQueue (cleanupExpiredReservationsLocked db t).WaitQueues c rest p hp with
              h2 | h2
            · exact h1.2.2.2 p h2
            · subst h2
              intro e' he'
              have hh : e' ∈ getQueue (cleanupExpiredReservationsLocked db t).WaitQueues c := by
                rw [hq]
                exact List.mem_cons_of_mem _ he'
              obtain ⟨p0, hp0, hep0⟩ :=
                mem_getQueue (cleanupExpiredReservationsLocked db t).WaitQueues c e' hh
              exact h1.2.2.2 p0 hp0 e' hep0

theorem capacityInv_applyOp (op : Op) (t : Nat) (db : Database)
    (hwf : op.wfB = true) (h : CapacityInv db) : CapacityInv (applyOp op t db) := by
  cases op with
  | createUser name email => exact capacityInv_CreateUser db name email t h
  | createBooking u c n =>
    exact capacityInv_CreateBooking db u c n t (by simpa [Op.wfB] using hwf) h
  | createReservation u c n =>
    exact capacityInv_CreateReservation db u c n t (by simpa [Op.wfB] using hwf) h
  | confirmReservation id => exact capacityInv_ConfirmReservation db id t h
  | cancelReservation id => exact capacityInv_CancelReservation db id h
  | getReservation id => exact capacityInv_GetReservation db id t h
  | enqueueWait u c n =>
    exact capacityInv_EnqueueWait db u c n t (by simpa [Op.wfB] using hwf) h
  | claimNext u c => exact capacityInv_ClaimNext db u c t h

theorem capacityInv_runOps (ops : List (Nat × Op)) (db : Database)
    (hwf : ops.all (fun p => p.2.wfB) = true) (h : CapacityInv db) :
    CapacityInv (runOps ops db) := by
  induction ops generalizing db with
  | nil => exact h
  | cons p rest ih =>
    simp only [List.all_cons, Bool.and_eq_true] at hwf
    exact ih (applyOp p.2 p.1 db) hwf.2 (capacityInv_applyOp p.2 p.1 db hwf.1 h)

theorem capacityInv_initialDatabase : CapacityInv initialDatabase := by
  refine ⟨?_, ?_, ?_, ?_⟩ <;> decide

theorem sumB_nonneg (bs : List Booking) (c : Nat)
    (h : ∀ b ∈ bs, 1 ≤ b.TicketsBooked) : 0 ≤ sumB bs c := by
  apply List.sum_nonneg
  intro x hx
  obtain ⟨b, hb, rfl⟩ := List.mem_map.mp hx
  have := h b (List.mem_of_mem_filter hb)
  omega

/-- C1 (counterexample): the claimed invariant `0 ≤ availableCount` fails.
Starting from the seed catalog, requester 7 reserves 1 ticket of
conference 1 (availableCount stays 100), requester 8 then books all 100
tickets directly (`CreateBooking` ignores reservations), and requester 7
confirms the still-unexpired reservation (`ConfirmReservation` decrements
without re-checking): `AvailableTickets` of conference 1 ends at `-1`. -/
theorem capacity_invariant_counterexample :
    confAvail (runOps [(0, .createReservation 7 1 1), (1, .createBooking 8 1 100),
      (2, .confirmReservation 0)] initialDatabase) 1 = some (-1) ∧
    ¬ (∀ c ∈ (runOps [(0, .createReservation 7 1 1), (1, .createBooking 8 1 100),
      (2, .confirmReservation 0)] initialDatabase).Conferences,
        0 ≤ c.AvailableTickets) := by
  decide

/-- C1 (amended): after any sequence of well-formed engine operations,
every resource's `availableCount` equals `totalCapacity` minus the sum of
ticket counts over all Bookings for that resource, and `availableCount`
never exceeds `totalCapacity`; but `availableCount` can become negative
(see `capacity_invariant_counterexample`), because a reservation is
confirmed without re-checking availability against direct bookings made
while it was held. -/
theorem capacity_invariant_amended (ops : List (Nat × Op))
    (hwf : ops.all (fun p => p.2.wfB) = true) :
    ∀ c ∈ (runOps ops initialDatabase).Conferences,
      c.AvailableTickets = c.TotalTickets - sumBookingsFor (runOps ops initialDatabase) c.ID ∧
      c.AvailableTickets ≤ c.TotalTickets := by
  have hinv := capacityInv_runOps ops initialDatabase hwf capacityInv_initialDatabase
  intro c hc
  refine ⟨hinv.1 c hc, ?_⟩
  have heq := hinv.1 c hc
  have hpos := sumB_nonneg (runOps ops initialDatabase).Bookings c.ID hinv.2.1
  rw [heq]
  omega

/-- Witness for `capacity_invariant_amended` at the concrete trace of the
counterexample scenario. -/
theorem capacity_invariant_amended_witness :
    ([(0, Op.createReservation 7 1 1), (1, Op.createBooking 8 1 100),
      (2, Op.confirmReservation 0)] : List (Nat × Op)).all (fun p => p.2.wfB) = true ∧
    (∀ c ∈ (runOps [(0, Op.createReservation 7 1 1), (1, Op.createBooking 8 1 100),
      (2, Op.confirmReservation 0)] initialDatabase).Conferences,
      c.AvailableTickets = c.TotalTickets -
        sumBookingsFor (runOps [(0, Op.createReservation 7 1 1),
          (1, Op.createBooking 8 1 100), (2, Op.confirmReservation 0)] initialDatabase) c.ID ∧
      c.AvailableTickets ≤ c.TotalTickets) :=
  ⟨by decide, capacity_invariant_amended _ (by decide)⟩

/-! ## Reservation exclusivity (C2) -/

/-- At instant `t`, no two distinct ledger entries are unexpired
reservations of the same (requester, resource) pair. -/
def ExclusiveAt (t : Nat) (db : Database) : Prop :=
  db.Reservations.Pairwise (fun r1 r2 =>
    ¬(r1.UserID = r2.UserID ∧ r1.ConferenceID = r2.ConferenceID ∧
      t < r1.ExpiresAt ∧ t < r2.ExpiresAt))

theorem exclusiveAt_mono (t t' : Nat) (db : Database) (hle : t ≤ t')
    (h : ExclusiveAt t db) : ExclusiveAt t' db := by
  refine h.imp ?_
  intro r1 r2 hr hc
  exact hr ⟨hc.1, hc.2.1, lt_of_le_of_lt hle hc.2.2.1, lt_of_le_of_lt hle hc.2.2.2⟩

theorem exclusiveAt_cleanup (t : Nat) (db : Database) (h : ExclusiveAt t db) :
    ExclusiveAt t (cleanupExpiredReservationsLocked db t) :=
  h.sublist (List.filter_sublist _)

/-- Every operation other than `ClaimNext` preserves exclusivity at its
own instant: `CreateReservation` is guarded by the duplicate-active check,
and the remaining operations only delete or leave reservations alone. -/
theorem exclusiveAt_applyOp (op : Op) (t : Nat) (db : Database)
    (hop : op.isClaim = false) (h : ExclusiveAt t db) :
    ExclusiveAt t (applyOp op t db) := by
  cases op with
  | createUser name email =>
    simp only [applyOp, CreateUser]
    split
    · exact h
    · exact h
  | createBooking u c n =>
    simp only [applyOp, CreateBooking]
    split
    · exact h
    · split
      · exact h
      · exact h
  | createReservation u c n =>
    have h1 := exclusiveAt_cleanup t db h
    simp only [applyOp, CreateReservation]
    split
    · exact h1
    · split
      · exact h1
      · split
        · exact h1
        · next hany _ =>
          show List.Pairwise _ (_ ++ [_])
          rw [List.pairwise_append]
          refine ⟨h1, List.pairwise_singleton _ _, ?_⟩
          intro a ha b hb
          simp only [List.mem_singleton] at hb
          subst hb
          intro hcontra
          apply hany
          rw [List.any_eq_true]
          refine ⟨a, ha, ?_⟩
          simp only [Bool.and_eq_true, beq_iff_eq, decide_eq_true_eq]
          exact ⟨⟨hcontra.1, hcontra.2.1⟩, hcontra.2.2.1⟩
  | confirmReservation id =>
    simp only [applyOp, ConfirmReservation]
    split
    · exact h
    · split
      · exact h.sublist (List.eraseP_sublist _)
      · exact h.sublist (List.eraseP_sublist _)
  | cancelReservation id =>
    simp only [applyOp, CancelReservation]
    split
    · exact h.sublist (List.eraseP_sublist _)
    · exact h
  | getReservation id =>
    have h1 := exclusiveAt_cleanup t db h
    simp only [applyOp, GetReservation]
    split
    · exact h1
    · exact h1
  | enqueueWait u c n =>
    simp only [applyOp, EnqueueWait]
    split
    · exact h
    · exact h
  | claimNext u c => simp [Op.isClaim] at hop

theorem exclusive_runOps (ops : List (Nat × Op)) (db : Database) (t0 : Nat)
    (hchron : chronFrom t0 ops = true)
    (hnc : ops.all (fun p => !p.2.isClaim) = true)
    (h : ExclusiveAt t0 db) :
    ExclusiveAt (endTime t0 ops) (runOps ops db) := by
  induction ops generalizing db t0 with
  | nil => exact h
  | cons p rest ih =>
    obtain ⟨t, op⟩ := p
    simp only [chronFrom, Bool.and_eq_true, decide_eq_true_eq] at hchron
    simp only [List.all_cons, Bool.and_eq_true, Bool.not_eq_true'] at hnc
    exact ih (applyOp op t db) t hchron.2 hnc.2
      (exclusiveAt_applyOp op t db hnc.1
        (exclusiveAt_mono t0 t db hchron.1 h))

/-- C2 (counterexample): requester 7 creates a reservation for
conference 1, enqueues on its wait queue, and claims the head slot.
`ClaimNext` performs no duplicate-active-reservation check, so requester 7
ends up holding two unexpired reservations for the same conference at
instant 0. -/
theorem reservation_exclusivity_counterexample :
    activeCount (runOps [(0, .createReservation 7 1 1), (0, .enqueueWait 7 1 1),
      (0, .claimNext 7 1)] initialDatabase) 7 1 0 = 2 ∧
    ¬ ExclusiveAt 0 (runOps [(0, .createReservation 7 1 1), (0, .enqueueWait 7 1 1),
      (0, .claimNext 7 1)] initialDatabase) := by
  constructor
  · decide
  · unfold ExclusiveAt
    decide

/-- C2 (amended): for every chronological sequence of engine operations
that contains no `ClaimNext`, at most one unexpired reservation exists per
(requester, resource) pair at every instant from the last operation on.
`ClaimNext` bypasses the duplicate-active check, so sequences in which a
requester reserves directly and also claims the queue head violate
exclusivity (see `reservation_exclusivity_counterexample`). -/
theorem reservation_exclusivity_amended (ops : List (Nat × Op))
    (hchron : chronFrom 0 ops = true)
    (hnc : ops.all (fun p => !p.2.isClaim) = true)
    (t : Nat) (ht : endTime 0 ops ≤ t) :
    ExclusiveAt t (runOps ops initialDatabase) :=
  exclusiveAt_mono (endTime 0 ops) t (runOps ops initialDatabase) ht
    (exclusive_runOps ops initialDatabase 0 hchron hnc
      (List.Pairwise.nil))

/-- Witness for `reservation_exclusivity_amended`: two requesters reserve
the same conference in sequence; the ledger stays exclusive. -/
theorem reservation_exclusivity_amended_witness :
    chronFrom 0 [(0, Op.createReservation 7 1 1), (5, Op.createReservation 8 1 2)] = true ∧
    ([(0, Op.createReservation 7 1 1), (5, Op.createReservation 8 1 2)] :
      List (Nat × Op)).all (fun p => !p.2.isClaim) = true ∧
    endTime 0 [(0, Op.createReservation 7 1 1), (5, Op.createReservation 8 1 2)] ≤ 9 ∧
    ExclusiveAt 9
      (runOps [(0, Op.createReservation 7 1 1), (5, Op.createReservation 8 1 2)]
        initialDatabase) :=
  ⟨by decide, by decide, by decide,
    reservation_exclusivity_amended _ (by decide) (by decide) 9 (by decide)⟩

/-! ## Effective availability of `CreateReservation` (C3) -/

theorem postPurgeSum_eq (db : Database) (c now : Nat) :
    (((cleanupExpiredReservationsLocked db now).Reservations.filter
        (fun r => r.ConferenceID == c)).map (fun r => r.TicketCount)).sum
      = postPurgeSum db c now := by
  simp only [cleanupExpiredReservationsLocked, postPurgeSum, List.filter_filter]

/-- C3 (counterexample): at the exact expiry instant of a reservation, the
purge (`now.After`) keeps the entry while the active-reservation predicate
(`now.Before`) already rejects it, so the reserved-ticket sum of
`CreateReservation` still counts an *expired* hold.  Requester 7 reserves
all 100 tickets of conference 1 at instant 0 (expiry 15); at instant 15
the sum of unexpired reservations is 0 and availability is 100, so the
claim says requester 9's request for 1 ticket must succeed — the code
fails it with `InsufficientInventory`. -/
theorem effective_availability_counterexample :
    (CreateReservation (runOps [(0, .createReservation 7 1 100)] initialDatabase) 9 1 1 15).1
      = .error .insufficientInventory ∧
    activeSum (runOps [(0, .createReservation 7 1 100)] initialDatabase) 1 15 = 0 ∧
    confAvail (runOps [(0, .createReservation 7 1 100)] initialDatabase) 1 = some 100 ∧
    activeCount (runOps [(0, .createReservation 7 1 100)] initialDatabase) 9 1 15 = 0 ∧
    ¬ ((1 : Int) > 100 - 0) := by
  decide

/-- C3 (amended): given an existing resource and a requester with no
unexpired reservation for it, `CreateReservation` fails with
`InsufficientInventory` exactly when the requested count exceeds
`availableCount` minus the sum of ticket counts of the reservations that
survive the purge (those with `expiresAt ≥ now` — an entry exactly at its
expiry instant still counts against availability, unlike the claim's
"unexpired" reading), and succeeds otherwise, returning a new reservation
with `expiresAt = now + holdDuration` and leaving `availableCount`
untouched. -/
theorem effective_availability_amended (db : Database) (u c : Nat) (n : Int)
    (now : Nat) (conf : Conference)
    (hc : findConf db.Conferences c = some conf)
    (hnodup : ∀ r ∈ db.Reservations,
      ¬(r.UserID = u ∧ r.ConferenceID = c ∧ now < r.ExpiresAt)) :
    ((CreateReservation db u c n now).1 = .error .insufficientInventory ↔
      conf.AvailableTickets - postPurgeSum db c now < n) ∧
    (¬(conf.AvailableTickets - postPurgeSum db c now < n) →
      ∃ res db2, CreateReservation db u c n now = (.ok res, db2) ∧
        res.UserID = u ∧ res.ConferenceID = c ∧ res.TicketCount = n ∧
        res.ExpiresAt = now + holdDuration ∧
        db2.Conferences = db.Conferences) := by
  have hc' : findConf (cleanupExpiredReservationsLocked db now).Conferences c = some conf := hc
  have hany : ((cleanupExpiredReservationsLocked db now).Reservations.any (fun r =>
      r.UserID == u && r.ConferenceID == c && decide (now < r.ExpiresAt))) = false := by
    rw [List.any_eq_false]
    intro r hr
    have hmem : r ∈ db.Reservations := List.mem_of_mem_filter hr
    have hn := hnodup r hmem
    simp only [Bool.and_eq_true, beq_iff_eq, decide_eq_true_eq, not_and]
    intro h1 h2
    exact hn ⟨h1.1, h1.2, h2⟩
  simp only [CreateReservation, hc', hany, Bool.false_eq_true, if_false]
  rw [postPurgeSum_eq]
  by_cases hlt : conf.AvailableTickets - postPurgeSum db c now < n
  · rw [if_pos hlt]
    exact ⟨⟨fun _ => hlt, fun _ => rfl⟩, fun hn2 => absurd hlt hn2⟩
  · rw [if_neg hlt]
    refine ⟨⟨fun h => Except.noConfusion h, fun h => absurd h hlt⟩, fun _ => ?_⟩
    exact ⟨_, _, rfl, rfl, rfl, rfl, rfl, rfl⟩

/-- Witness for `effective_availability_amended`: on the seed catalog,
requester 7's request for 1 ticket of conference 1 at instant 0 succeeds
with a hold expiring at `holdDuration`. -/
theorem effective_availability_amended_witness :
    ∃ res db2, CreateReservation initialDatabase 7 1 1 0 = (.ok res, db2) ∧
      res.UserID = 7 ∧ res.ConferenceID = 1 ∧ res.TicketCount = 1 ∧
      res.ExpiresAt = 0 + holdDuration ∧ db2.Conferences = initialDatabase.Conferences :=
  (effective_availability_amended initialDatabase 7 1 1 0
    { ID := 1, Name := "Go Conference 2024", Location := "San Francisco",
      TotalTickets := 100, AvailableTickets := 100, Price := 29999/100, Date := 0 }
    rfl (by decide)).2 (by decide)

/-! ## The `ConfirmReservation` contract (C4) -/

theorem findConf_updateConf (confs : List Conference) (cid : Nat)
    (f : Conference → Conference) (hID : ∀ c, (f c).ID = c.ID) :
    findConf (updateConf confs cid f) cid = (findConf confs cid).map f := by
  induction confs with
  | nil => rfl
  | cons c rest ih =>
    by_cases h : (c.ID == cid) = true
    · have hfc : ((f c).ID == cid) = true := by
        rw [show (f c).ID = c.ID from hID c]
        exact h
      simp only [updateConf, List.map_cons, if_pos h]
      unfold findConf
      simp only [List.find?, hfc, h, Option.map_some']
    · have h' : (c.ID == cid) = false := by simpa using h
      simp only [updateConf, List.map_cons, if_neg h]
      unfold findConf
      simp only [List.find?, h']
      simp only [updateConf, findConf] at ih
      exact ih

/-- C4 (counterexample): at `now = expiresAt` the claim demands `Expired`
(`now ≥ expiresAt`), but the code's check is `time.Now().After(ExpiresAt)`
— strict — so the confirmation succeeds.  The reservation created at
instant 0 expires at 15; confirming at instant 15 reports no error. -/
theorem confirm_contract_counterexample :
    ((runOps [(0, .createReservation 7 1 1)] initialDatabase).Reservations.map
      (fun r => (r.ID, r.ExpiresAt))) = [(0, 15)] ∧
    opError (.confirmReservation 0) 15
      (runOps [(0, .createReservation 7 1 1)] initialDatabase) = none := by
  decide

/-- C4 (amended): `ConfirmReservation` fails with `NotFound` if the
reservation is absent; fails with `Expired` if `now > expiresAt`
(strictly — at `now = expiresAt` it still succeeds), discarding the entry
as a side effect; and otherwise creates a Booking with the reservation's
requester, resource, ticket count and price, decrements the resource's
`availableCount` by that count, removes the reservation from the ledger,
and returns the Booking. -/
theorem confirm_contract_amended (db : Database) (id now : Nat) :
    (db.Reservations.find? (fun r => r.ID == id) = none →
      ConfirmReservation db id now = (.error .notFound, db)) ∧
    (∀ r, db.Reservations.find? (fun r => r.ID == id) = some r → now > r.ExpiresAt →
      ConfirmReservation db id now = (.error .expired,
        { db with Reservations := db.Reservations.eraseP (fun r => r.ID == id) })) ∧
    (∀ r, db.Reservations.find? (fun r => r.ID == id) = some r → ¬(now > r.ExpiresAt) →
      ∃ b db2, ConfirmReservation db id now = (.ok b, db2) ∧
        b.UserID = r.UserID ∧ b.ConferenceID = r.ConferenceID ∧
        b.TicketsBooked = r.TicketCount ∧ b.TotalAmount = r.TotalAmount ∧
        db2.Reservations = db.Reservations.eraseP (fun r => r.ID == id) ∧
        db2.Bookings = db.Bookings ++ [b] ∧
        (∀ a : Int, confAvail db r.ConferenceID = some a →
          confAvail db2 r.ConferenceID = some (a - r.TicketCount))) := by
  refine ⟨?_, ?_, ?_⟩
  · intro hnone
    simp only [ConfirmReservation, hnone]
  · intro r hfind hexp
    simp only [ConfirmReservation, hfind]
    rw [if_pos hexp]
  · intro r hfind hexp
    simp only [ConfirmReservation, hfind]
    rw [if_neg hexp]
    refine ⟨_, _, rfl, rfl, rfl, rfl, rfl, rfl, rfl, ?_⟩
    intro a ha
    simp only [confAvail] at ha
    obtain ⟨c0, hc0, hc0a⟩ := Option.map_eq_some'.mp ha
    have hupd := findConf_updateConf db.Conferences r.ConferenceID
      (fun c => { c with AvailableTickets := c.AvailableTickets - r.TicketCount })
      (fun c => rfl)
    simp only [confAvail, hupd, hc0, Option.map_some']
    rw [← hc0a]

/-- Witness for `confirm_contract_amended`: confirming a stale
reservation one instant after expiry discards it and reports `Expired`. -/
theorem confirm_contract_amended_witness :
    ConfirmReservation
      { Users := [], Conferences := [], Bookings := [],
        Reservations := [{ ID := 5, UserID := 7, ConferenceID := 1, TicketCount := 1,
                           TotalAmount := 3, ExpiresAt := 10, CreatedAt := 0 }],
        WaitQueues := [], nextId := 6 } 5 12
      = (.error .expired,
        { Users := [], Conferences := [], Bookings := [],
          Reservations := ([] : List SeatReservation),
          WaitQueues := [], nextId := 6 }) :=
  (confirm_contract_amended
    { Users := [], Conferences := [], Bookings := [],
      Reservations := [{ ID := 5, UserID := 7, ConferenceID := 1, TicketCount := 1,
                         TotalAmount := 3, ExpiresAt := 10, CreatedAt := 0 }],
      WaitQueues := [], nextId := 6 } 5 12).2.1
    { ID := 5, UserID := 7, ConferenceID := 1, TicketCount := 1,
      TotalAmount := 3, ExpiresAt := 10, CreatedAt := 0 } rfl (by decide)

/-! ## Reservation identifier freshness and permanent unobservability (C5) -/

/-- Every stored reservation id was drawn from the id source, and ids are
pairwise distinct (both hold in every reachable state, since `uuid.New()`
never repeats). -/
def ResIdsOK (db : Database) : Prop :=
  (∀ r ∈ db.Reservations, r.ID < db.nextId) ∧
  (db.Reservations.map (fun r => r.ID)).Nodup

/-- The reservation id is dead: absent from the ledger and already
consumed by the id source, so no later operation can reintroduce it. -/
def ReservationGone (id : Nat) (db : Database) : Prop :=
  id < db.nextId ∧ ∀ r ∈ db.Reservations, r.ID ≠ id

/-- `Get`/`Confirm`/`Cancel` on the id all report `NotFound`. -/
def allNotFound (id : Nat) (db : Database) (t : Nat) : Prop :=
  (GetReservation db id t).1 = .error .notFound ∧
  (ConfirmReservation db id t).1 = .error .notFound ∧
  (CancelReservation db id).1 = .error .notFound

theorem find?_eq_none_of_gone (l : List SeatReservation) (id : Nat)
    (h : ∀ r ∈ l, r.ID ≠ id) :
    l.find? (fun r => r.ID == id) = none := by
  rw [List.find?_eq_none]
  intro r hr
  simp only [beq_iff_eq]
  exact h r hr

theorem allNotFound_of_gone (id : Nat) (db : Database) (t : Nat)
    (h : ReservationGone id db) : allNotFound id db t := by
  have hg : ∀ r ∈ db.Reservations, r.ID ≠ id := h.2
  refine ⟨?_, ?_, ?_⟩
  · simp only [GetReservation, cleanupExpiredReservationsLocked]
    rw [find?_eq_none_of_gone _ id
      (fun r hr => hg r (List.mem_of_mem_filter hr))]
  · simp only [ConfirmReservation]
    rw [find?_eq_none_of_gone _ id hg]
  · simp only [CancelReservation]
    rw [if_neg ?_]
    intro hc
    rw [List.any_eq_true] at hc
    obtain ⟨r, hr, hrid⟩ := hc
    exact hg r hr (by simpa using hrid)

theorem gone_applyOp (op : Op) (t : Nat) (db : Database) (id : Nat)
    (h : ReservationGone id db) : ReservationGone id (applyOp op t db) := by
  have hlt := h.1
  have hg := h.2
  have hclean : ∀ r ∈ (cleanupExpiredReservationsLocked db t).Reservations, r.ID ≠ id :=
    fun r hr => hg r (List.mem_of_mem_filter hr)
  cases op with
  | createUser name email =>
    simp only [applyOp, CreateUser]
    split
    · exact h
    · exact ⟨Nat.lt_succ_of_lt hlt, hg⟩
  | createBooking u c n =>
    simp only [applyOp, CreateBooking]
    split
    · exact h
    · split
      · exact h
      · exact ⟨Nat.lt_succ_of_lt hlt, hg⟩
  | createReservation u c n =>
    simp only [applyOp, CreateReservation]
    split
    · exact ⟨hlt, hclean⟩
    · split
      · exact ⟨hlt, hclean⟩
      · split
        · exact ⟨hlt, hclean⟩
        · refine ⟨Nat.lt_succ_of_lt hlt, ?_⟩
          intro r hr
          rcases List.mem_append.mp hr with h1 | h1
          · exact hclean r h1
          · simp only [List.mem_singleton] at h1
            subst h1
            exact fun hcon => Nat.lt_irrefl _ (hcon ▸ hlt)
  | confirmReservation rid =>
    simp only [applyOp, ConfirmReservation]
    split
    · exact h
    · split
      · exact ⟨hlt, fun r hr => hg r ((List.eraseP_sublist _).subset hr)⟩
      · refine ⟨Nat.lt_succ_of_lt hlt, ?_⟩
        intro r hr
        exact hg r ((List.eraseP_sublist _).subset hr)
  | cancelReservation rid =>
    simp only [applyOp, CancelReservation]
    split
    · exact ⟨hlt, fun r hr => hg r ((List.eraseP_sublist _).subset hr)⟩
    · exact h
  | getReservation rid =>
    simp only [applyOp, GetReservation]
    split
    · exact ⟨hlt, hclean⟩
    · exact ⟨hlt, hclean⟩
  | enqueueWait u c n =>
    simp only [applyOp, EnqueueWait]
    split
    · exact h
    · exact ⟨Nat.lt_succ_of_lt hlt, hg⟩
  | claimNext u c =>
    simp only [applyOp, ClaimNext]
    split
    · exact ⟨hlt, hclean⟩
    · split
      · exact ⟨hlt, hclean⟩
      · split
        · exact ⟨hlt, hclean⟩
        · split
          · exact ⟨hlt, hclean⟩
          · refine ⟨Nat.lt_succ_of_lt hlt, ?_⟩
            intro r hr
            rcases List.mem_append.mp hr with h1 | h1
            · exact hclean r h1
            · simp only [List.mem_singleton] at h1
              subst h1
              exact fun hcon => Nat.lt_irrefl _ (hcon ▸ hlt)

theorem gone_runOps (ops : List (Nat × Op)) (db : Database) (id : Nat)
    (h : ReservationGone id db) : ReservationGone id (runOps ops db) := by
  induction ops generalizing db with
  | nil => exact h
  | cons p rest ih => exact ih (applyOp p.2 p.1 db) (gone_applyOp p.2 p.1 db id h)

theorem eraseP_id_complete (l : List SeatReservation) (id : Nat)
    (hnd : (l.map (fun r => r.ID)).Nodup) :
    ∀ x ∈ l.eraseP (fun r => r.ID == id), x.ID ≠ id := by
  induction l with
  | nil => simp [List.eraseP]
  | cons a l ih =>
    simp only [List.map_cons, List.nodup_cons] at hnd
    by_cases ha : (a.ID == id) = true
    · simp only [List.eraseP_cons, ha, cond_true]
      intro x hx hxid
      have haid : a.ID = id := by simpa using ha
      apply hnd.1
      rw [haid, ← hxid]
      exact List.mem_map_of_mem (fun r => r.ID) hx
    · have ha' : (a.ID == id) = false := by simpa using ha
      simp only [List.eraseP_cons, ha', cond_false]
      intro x hx
      rcases List.mem_cons.mp hx with h1 | h1
      · subst h1
        simpa using ha
      · exact ih hnd.2 x h1

theorem gone_after_confirm_ok (db : Database) (id now : Nat) (b : Booking)
    (db2 : Database) (hids : ResIdsOK db)
    (heq : ConfirmReservation db id now = (.ok b, db2)) : ReservationGone id db2 := by
  simp only [ConfirmReservation] at heq
  cases hf : db.Reservations.find? (fun r => r.ID == id) with
  | none =>
    simp only [hf] at heq
    exact Except.noConfusion (congrArg Prod.fst heq)
  | some r =>
    simp only [hf] at heq
    have hrmem := List.mem_of_find?_eq_some hf
    have hrid : r.ID = id := by simpa using List.find?_some hf
    by_cases hexp : now > r.ExpiresAt
    · rw [if_pos hexp] at heq
      exact Except.noConfusion (congrArg Prod.fst heq)
    · rw [if_neg hexp] at heq
      have h2 := congrArg Prod.snd heq
      simp only at h2
      subst h2
      refine ⟨Nat.lt_succ_of_lt (hrid ▸ hids.1 r hrmem), ?_⟩
      exact eraseP_id_complete db.Reservations id hids.2

theorem gone_after_confirm_expired (db : Database) (id now : Nat)
    (db2 : Database) (hids : ResIdsOK db)
    (heq : ConfirmReservation db id now = (.error .expired, db2)) :
    ReservationGone id db2 := by
  simp only [ConfirmReservation] at heq
  cases hf : db.Reservations.find? (fun r => r.ID == id) with
  | none =>
    simp only [hf] at heq
    have h1 := congrArg Prod.fst heq
    simp only at h1
    exact absurd (Except.error.inj h1) (by intro hh; cases hh)
  | some r =>
    simp only [hf] at heq
    have hrmem := List.mem_of_find?_eq_some hf
    have hrid : r.ID = id := by simpa using List.find?_some hf
    by_cases hexp : now > r.ExpiresAt
    · rw [if_pos hexp] at heq
      have h2 := congrArg Prod.snd heq
      simp only at h2
      subst h2
      refine ⟨hrid ▸ hids.1 r hrmem, ?_⟩
      exact eraseP_id_complete db.Reservations id hids.2
    · rw [if_neg hexp] at heq
      exact Except.noConfusion (congrArg Prod.fst heq)

theorem gone_after_cancel (db : Database) (id : Nat) (db2 : Database)
    (hids : ResIdsOK db)
    (heq : CancelReservation db id = (.ok (), db2)) : ReservationGone id db2 := by
  simp only [CancelReservation] at heq
  by_cases hany : (db.Reservations.any (fun r => r.ID == id)) = true
  · rw [if_pos hany] at heq
    have h2 := congrArg Prod.snd heq
    simp only at h2
    subst h2
    rw [List.any_eq_true] at hany
    obtain ⟨r, hrmem, hrid⟩ := hany
    have hrid' : r.ID = id := by simpa using hrid
    refine ⟨hrid' ▸ hids.1 r hrmem, ?_⟩
    exact eraseP_id_complete db.Reservations id hids.2
  · rw [if_neg hany] at heq
    exact Except.noConfusion (congrArg Prod.fst heq)

/-- C5: confirming or cancelling the same reservation twice yields
`NotFound` on the second attempt; confirming a still-present reservation
after the hold window has elapsed (`now > expiresAt`) yields `Expired`;
and after a successful confirm, an expired confirm, or a cancel, the
reservation id is permanently unobservable — `Get`, `Confirm` and
`Cancel` on it yield `NotFound` after every further operation sequence
(generated ids are never reused). -/
theorem expiry_idempotence (db : Database) (hids : ResIdsOK db)
    (id now t : Nat) (ops : List (Nat × Op)) :
    (∀ r ∈ db.Reservations, r.ID = id → now > r.ExpiresAt →
      (ConfirmReservation db id now).1 = .error .expired) ∧
    (∀ b db2, ConfirmReservation db id now = (.ok b, db2) →
      allNotFound id (runOps ops db2) t) ∧
    (∀ db2, ConfirmReservation db id now = (.error .expired, db2) →
      allNotFound id (runOps ops db2) t) ∧
    (∀ db2, CancelReservation db id = (.ok (), db2) →
      allNotFound id (runOps ops db2) t) := by
  refine ⟨?_, ?_, ?_, ?_⟩
  · intro r hr hrid hexp
    cases hf : db.Reservations.find? (fun r => r.ID == id) with
    | none =>
      have := List.find?_eq_none.mp hf r hr
      simp [hrid] at this
    | some r0 =>
      have hr0mem := List.mem_of_find?_eq_some hf
      have hr0id : r0.ID = id := by simpa using List.find?_some hf
      have heqr : r0 = r :=
        List.inj_on_of_nodup_map hids.2 hr0mem hr (by rw [hr0id, hrid])
      subst heqr
      simp only [ConfirmReservation, hf]
      rw [if_pos hexp]
  · intro b db2 heq
    exact allNotFound_of_gone id _ t
      (gone_runOps ops db2 id (gone_after_confirm_ok db id now b db2 hids heq))
  · intro db2 heq
    exact allNotFound_of_gone id _ t
      (gone_runOps ops db2 id (gone_after_confirm_expired db id now db2 hids heq))
  · intro db2 heq
    exact allNotFound_of_gone id _ t
      (gone_runOps ops db2 id (gone_after_cancel db id db2 hids heq))

/-- Witness for `expiry_idempotence`: requester 7's reservation (id 0,
expiring at 15) is confirmed at instant 16: the attempt reports `Expired`,
and afterwards `Get`, `Confirm` and `Cancel` on id 0 all report
`NotFound`. -/
theorem expiry_idempotence_witness :
    ResIdsOK (runOps [(0, Op.createReservation 7 1 1)] initialDatabase) ∧
    (ConfirmReservation (runOps [(0, Op.createReservation 7 1 1)] initialDatabase) 0 16).1
      = .error .expired ∧
    allNotFound 0 (runOps []
      (ConfirmReservation (runOps [(0, Op.createReservation 7 1 1)] initialDatabase) 0 16).2)
      20 := by
  refine ⟨⟨by decide, by decide⟩, rfl, ?_⟩
  exact (expiry_idempotence (runOps [(0, Op.createReservation 7 1 1)] initialDatabase)
    ⟨by decide, by decide⟩ 0 16 20 []).2.2.1 _ rfl

/-! ## Queue fairness (C6) -/

theorem queuePos_zero_append (u : Nat) (q : List WaitEntry) (e : WaitEntry)
    (h : queuePos u q = 0) (he : e.UserID ≠ u) : queuePos u (q ++ [e]) = 0 := by
  induction q with
  | nil =>
    simp only [List.nil_append, queuePos]
    rw [if_neg (by simpa using he)]
    simp [queuePos]
  | cons a q ih =>
    simp only [queuePos] at h
    by_cases ha : (a.UserID == u) = true
    · rw [if_pos ha] at h
      cases h
    · rw [if_neg ha] at h
      by_cases hq : queuePos u q = 0
      · have h2 := ih hq
        simp only [List.cons_append, queuePos]
        rw [if_neg ha]
        rw [show q.append [e] = q ++ [e] from rfl, h2]
        simp
      · rw [if_neg hq] at h
        omega

theorem queuePos_of_map (q : List WaitEntry) :
    ∀ (us : List Nat), q.map (fun e => e.UserID) = us → us.Nodup →
    ∀ k (hk : k < us.length), queuePos (us.get ⟨k, hk⟩) q = k + 1 := by
  induction q with
  | nil =>
    intro us hmap hnd k hk
    subst hmap
    simp at hk
  | cons e q ih =>
    intro us hmap hnd k hk
    subst hmap
    simp only [List.map_cons, List.nodup_cons] at hnd
    cases k with
    | zero =>
      simp only [List.get, queuePos]
      rw [if_pos (by simp)]
    | succ k =>
      have hk' : k < (q.map (fun e => e.UserID)).length := by
        simpa using Nat.lt_of_succ_lt_succ hk
      show queuePos ((q.map (fun e => e.UserID)).get ⟨k, hk'⟩) (e :: q) = k + 1 + 1
      have hne : e.UserID ≠ (q.map (fun e => e.UserID)).get ⟨k, hk'⟩ := by
        intro hcon
        exact hnd.1 (hcon ▸ List.get_mem _ _ _)
      simp only [queuePos]
      rw [if_neg (by simpa using hne)]
      rw [ih _ rfl hnd.2 k hk']
      simp

theorem enqueueUpdate_none_of_absent (u : Nat) (tc : Int) (q : List WaitEntry)
    (h : queuePos u q = 0) : enqueueUpdate u tc q = none := by
  induction q with
  | nil => rfl
  | cons e q ih =>
    simp only [queuePos] at h
    by_cases he : (e.UserID == u) = true
    · rw [if_pos he] at h
      cases h
    · rw [if_neg he] at h
      simp only [enqueueUpdate]
      rw [if_neg he]
      by_cases hq : queuePos u q = 0
      · rw [ih hq]
        rfl
      · rw [if_neg hq] at h
        omega

theorem enqueue_run_map (us : List Nat) (db : Database) (c : Nat) (tc : Int)
    (t : Nat)
    (habs : ∀ u ∈ us, queuePos u (getQueue db.WaitQueues c) = 0)
    (hnd : us.Nodup) :
    (getQueue (runOps (us.map (fun u => (t, Op.enqueueWait u c tc))) db).WaitQueues c).map
      (fun e => e.UserID)
      = (getQueue db.WaitQueues c).map (fun e => e.UserID) ++ us := by
  induction us generalizing db with
  | nil => simp [runOps]
  | cons u us ih =>
    simp only [List.map_cons, List.nodup_cons] at hnd ⊢
    simp only [runOps]
    have habs0 := habs u (List.mem_cons_self _ _)
    have hupd := enqueueUpdate_none_of_absent u tc _ habs0
    have happ : applyOp (.enqueueWait u c tc) t db =
        { db with
          WaitQueues := setQueue db.WaitQueues c
            (getQueue db.WaitQueues c ++
              [{ ID := db.nextId, UserID := u, ConferenceID := c,
                 TicketCount := tc, EnqueuedAt := t }]),
          nextId := db.nextId + 1 } := by
      simp only [applyOp, EnqueueWait, hupd]
    rw [happ]
    rw [ih _ ?_ hnd.2]
    · rw [show ({ db with
          WaitQueues := setQueue db.WaitQueues c
            (getQueue db.WaitQueues c ++
              [{ ID := db.nextId, UserID := u, ConferenceID := c,
                 TicketCount := tc, EnqueuedAt := t }]),
          nextId := db.nextId + 1 } : Database).WaitQueues
        = setQueue db.WaitQueues c
            (getQueue db.WaitQueues c ++
              [{ ID := db.nextId, UserID := u, ConferenceID := c,
                 TicketCount := tc, EnqueuedAt := t }]) from rfl]
      rw [getQueue_setQueue_self]
      simp
    · intro u' hu'
      rw [show ({ db with
          WaitQueues := setQueue db.WaitQueues c
            (getQueue db.WaitQueues c ++
              [{ ID := db.nextId, UserID := u, ConferenceID := c,
                 TicketCount := tc, EnqueuedAt := t }]),
          nextId := db.nextId + 1 } : Database).WaitQueues
        = setQueue db.WaitQueues c
            (getQueue db.WaitQueues c ++
              [{ ID := db.nextId, UserID := u, ConferenceID := c,
                 TicketCount := tc, EnqueuedAt := t }]) from rfl]
      rw [getQueue_setQueue_self]
      refine queuePos_zero_append u' _ _ (habs u' (List.mem_cons_of_mem _ hu')) ?_
      intro hcon
      have : u = u' := hcon
      exact hnd.1 (this ▸ hu')

theorem claimNext_ok_effect (db : Database) (u c t : Nat)
    (herr : opError (.claimNext u c) t db = none) :
    ∃ head rest, getQueue db.WaitQueues c = head :: rest ∧ head.UserID = u ∧
      getQueue (applyOp (.claimNext u c) t db).WaitQueues c = rest := by
  have hwq : (cleanupExpiredReservationsLocked db t).WaitQueues = db.WaitQueues := rfl
  cases hq : getQueue db.WaitQueues c with
  | nil =>
    exfalso
    have hq' : getQueue (cleanupExpiredReservationsLocked db t).WaitQueues c = [] := by
      rw [hwq]
      exact hq
    simp [opError, ClaimNext, hq'] at herr
  | cons head rest =>
    have hq' : getQueue (cleanupExpiredReservationsLocked db t).WaitQueues c
        = head :: rest := by
      rw [hwq]
      exact hq
    by_cases hh : head.UserID ≠ u
    · exfalso
      simp [opError, ClaimNext, hq', hh] at herr
    · have hhu : head.UserID = u := not_ne_iff.mp hh
      cases hcf : findConf (cleanupExpiredReservationsLocked db t).Conferences c with
      | none =>
        exfalso
        simp [opError, ClaimNext, hq', hh, hcf] at herr
      | some conf =>
        by_cases hav : conf.AvailableTickets -
            (((cleanupExpiredReservationsLocked db t).Reservations.filter (fun r =>
                r.ConferenceID == c && decide (t < r.ExpiresAt))).map
              (fun r => r.TicketCount)).sum < head.TicketCount
        · exfalso
          simp [opError, ClaimNext, hq', hh, hcf, hav] at herr
        · refine ⟨head, rest, rfl, hhu, ?_⟩
          simp only [applyOp, ClaimNext, hq', hcf]
          rw [if_neg hh, if_neg hav]
          exact getQueue_setQueue_self _ _ _

/-- C6: (a) after N enqueues by pairwise-distinct requesters on an empty
queue, `GetQueuePosition` reports positions 1..N in enqueue order; and
(b) after any successful `ClaimNext` (which removes the head entry),
every other requester's position decreases by exactly 1. -/
theorem queue_fairness :
    (∀ (db : Database) (c : Nat) (users : List Nat) (tc : Int) (t : Nat),
      getQueue db.WaitQueues c = [] → users.Nodup →
      ∀ k (hk : k < users.length),
        GetQueuePosition (runOps (users.map (fun u => (t, Op.enqueueWait u c tc))) db)
          (users.get ⟨k, hk⟩) c = k + 1) ∧
    (∀ (db : Database) (u c t v p : Nat),
      opError (.claimNext u c) t db = none →
      GetQueuePosition db v c = p → 2 ≤ p →
      GetQueuePosition (applyOp (.claimNext u c) t db) v c = p - 1) := by
  constructor
  · intro db c users tc t h0 hnd k hk
    have habs : ∀ u ∈ users, queuePos u (getQueue db.WaitQueues c) = 0 := by
      intro u hu
      rw [h0]
      rfl
    have hmap := enqueue_run_map users db c tc t habs hnd
    rw [h0] at hmap
    simp only [List.map_nil, List.nil_append] at hmap
    simp only [GetQueuePosition]
    exact queuePos_of_map _ users hmap hnd k hk
  · intro db u c t v p herr hpos hp2
    obtain ⟨head, rest, hq, hhu, hq2⟩ := claimNext_ok_effect db u c t herr
    simp only [GetQueuePosition] at hpos ⊢
    rw [hq] at hpos
    rw [hq2]
    simp only [queuePos] at hpos
    by_cases hv : (head.UserID == v) = true
    · rw [if_pos hv] at hpos
      omega
    · rw [if_neg hv] at hpos
      by_cases hz : queuePos v rest = 0
      · rw [if_pos hz] at hpos
        omega
      · rw [if_neg hz] at hpos
        omega

/-- Witness for `queue_fairness`: requesters 4, 5, 6 enqueue on the empty
queue of conference 1 and obtain positions 1, 2, 3; requester 4's claim
succeeds and requester 5 moves from position 2 to position 1. -/
theorem queue_fairness_witness :
    GetQueuePosition (runOps (([4, 5, 6] : List Nat).map
        (fun u => (0, Op.enqueueWait u 1 1))) initialDatabase)
      (([4, 5, 6] : List Nat).get ⟨1, by decide⟩) 1 = 2 ∧
    GetQueuePosition (applyOp (.claimNext 4 1) 0
        (runOps (([4, 5, 6] : List Nat).map (fun u => (0, Op.enqueueWait u 1 1)))
          initialDatabase)) 5 1 = 2 - 1 :=
  ⟨queue_fairness.1 initialDatabase 1 [4, 5, 6] 1 0 rfl (by decide) 1 (by decide),
   queue_fairness.2
     (runOps (([4, 5, 6] : List Nat).map (fun u => (0, Op.enqueueWait u 1 1)))
       initialDatabase) 4 1 0 5 2 (by decide) (by decide) (by decide)⟩

/-! ## Claim gating and failure framing (C7) -/

/-- C7: a claim by any requester not at queue index 0 (including a
requester absent from the queue, or an empty queue) fails with
`NotYourTurn`; and every failing claim leaves the wait queues, the
conference catalog, the bookings, the users and the id source unchanged,
and touches the reservation ledger only by the lazy-expiry purge. -/
theorem claim_gating (db : Database) (u c t : Nat) :
    (GetQueuePosition db u c ≠ 1 → (ClaimNext db u c t).1 = .error .notYourTurn) ∧
    (∀ e, (ClaimNext db u c t).1 = .error e →
      (ClaimNext db u c t).2.WaitQueues = db.WaitQueues ∧
      (ClaimNext db u c t).2.Conferences = db.Conferences ∧
      (ClaimNext db u c t).2.Bookings = db.Bookings ∧
      (ClaimNext db u c t).2.Users = db.Users ∧
      (ClaimNext db u c t).2.nextId = db.nextId ∧
      (ClaimNext db u c t).2.Reservations
        = db.Reservations.filter (fun r => t ≤ r.ExpiresAt)) := by
  constructor
  · intro hpos
    cases hq : getQueue db.WaitQueues c with
    | nil =>
      have hq' : getQueue (cleanupExpiredReservationsLocked db t).WaitQueues c = [] := hq
      simp [ClaimNext, hq']
    | cons head rest =>
      have hq' : getQueue (cleanupExpiredReservationsLocked db t).WaitQueues c
          = head :: rest := hq
      by_cases hh : head.UserID = u
      · exfalso
        apply hpos
        simp only [GetQueuePosition]
        rw [hq]
        simp only [queuePos]
        rw [if_pos (by simpa using hh)]
      · have hcn : ClaimNext db u c t
            = (.error .notYourTurn, cleanupExpiredReservationsLocked db t) := by
          simp only [ClaimNext, hq']
          rw [if_pos hh]
        rw [hcn]
  · intro e he
    cases hq : getQueue (cleanupExpiredReservationsLocked db t).WaitQueues c with
    | nil =>
      have hcn : ClaimNext db u c t
          = (.error .notYourTurn, cleanupExpiredReservationsLocked db t) := by
        simp only [ClaimNext, hq]
      rw [hcn]
      exact ⟨rfl, rfl, rfl, rfl, rfl, rfl⟩
    | cons head rest =>
      by_cases hh : head.UserID ≠ u
      · have hcn : ClaimNext db u c t
            = (.error .notYourTurn, cleanupExpiredReservationsLocked db t) := by
          simp only [ClaimNext, hq]
          rw [if_pos hh]
        rw [hcn]
        exact ⟨rfl, rfl, rfl, rfl, rfl, rfl⟩
      · cases hcf : findConf (cleanupExpiredReservationsLocked db t).Conferences c with
        | none =>
          have hcn : ClaimNext db u c t
              = (.error .notFound, cleanupExpiredReservationsLocked db t) := by
            simp only [ClaimNext, hq, hcf]
            rw [if_neg hh]
          rw [hcn]
          exact ⟨rfl, rfl, rfl, rfl, rfl, rfl⟩
        | some conf =>
          by_cases hav : conf.AvailableTickets -
              (((cleanupExpiredReservationsLocked db t).Reservations.filter (fun r =>
                  r.ConferenceID == c && decide (t < r.ExpiresAt))).map
                (fun r => r.TicketCount)).sum < head.TicketCount
          · have hcn : ClaimNext db u c t
                = (.error .insufficientInventory,
                   cleanupExpiredReservationsLocked db t) := by
              simp only [ClaimNext, hq, hcf]
              rw [if_neg hh, if_pos hav]
            rw [hcn]
            exact ⟨rfl, rfl, rfl, rfl, rfl, rfl⟩
          · exfalso
            have hok : ∃ res, (ClaimNext db u c t).1 = .ok res := by
              simp only [ClaimNext, hq, hcf]
              rw [if_neg hh, if_neg hav]
              exact ⟨_, rfl⟩
            obtain ⟨res, hok⟩ := hok
            rw [hok] at he
            exact Except.noConfusion he

/-- Witness for `claim_gating`: requester 5 claims while requester 4
holds the queue head — `NotYourTurn`, and the whole state is unchanged
apart from the (here trivial) purge. -/
theorem claim_gating_witness :
    (ClaimNext initialDatabase 9 1 0).1 = .error .notYourTurn ∧
    ((ClaimNext (runOps [(0, Op.enqueueWait 4 1 1)] initialDatabase) 5 1 0).2.WaitQueues
        = (runOps [(0, Op.enqueueWait 4 1 1)] initialDatabase).WaitQueues ∧
      (ClaimNext (runOps [(0, Op.enqueueWait 4 1 1)] initialDatabase) 5 1 0).2.Conferences
        = (runOps [(0, Op.enqueueWait 4 1 1)] initialDatabase).Conferences ∧
      (ClaimNext (runOps [(0, Op.enqueueWait 4 1 1)] initialDatabase) 5 1 0).2.Bookings
        = (runOps [(0, Op.enqueueWait 4 1 1)] initialDatabase).Bookings ∧
      (ClaimNext (runOps [(0, Op.enqueueWait 4 1 1)] initialDatabase) 5 1 0).2.Users
        = (runOps [(0, Op.enqueueWait 4 1 1)] initialDatabase).Users ∧
      (ClaimNext (runOps [(0, Op.enqueueWait 4 1 1)] initialDatabase) 5 1 0).2.nextId
        = (runOps [(0, Op.enqueueWait 4 1 1)] initialDatabase).nextId ∧
      (ClaimNext (runOps [(0, Op.enqueueWait 4 1 1)] initialDatabase) 5 1 0).2.Reservations
        = (runOps [(0, Op.enqueueWait 4 1 1)] initialDatabase).Reservations.filter
            (fun r => 0 ≤ r.ExpiresAt)) :=
  ⟨(claim_gating initialDatabase 9 1 0).1 (by decide),
   (claim_gating (runOps [(0, Op.enqueueWait 4 1 1)] initialDatabase) 5 1 0).2
     .notYourTurn (by decide)⟩

/-! ## Failure atomicity of every engine operation (C8) -/

/-- The failure frame: the failed operation changed no users,
conferences, bookings, wait queues or ids, and touched the reservation
ledger only by dropping entries that were already expired (`t >
expiresAt`) — the lazy-expiry purge. -/
def ErrorFrame (db db' : Database) (t : Nat) : Prop :=
  db'.Users = db.Users ∧ db'.Conferences = db.Conferences ∧
  db'.Bookings = db.Bookings ∧ db'.WaitQueues = db.WaitQueues ∧
  db'.nextId = db.nextId ∧
  db'.Reservations.Sublist db.Reservations ∧
  (∀ r ∈ db.Reservations, r ∉ db'.Reservations → t > r.ExpiresAt)

theorem errorFrame_self (db : Database) (t : Nat) : ErrorFrame db db t :=
  ⟨rfl, rfl, rfl, rfl, rfl, List.Sublist.refl _, fun r hr hn => absurd hr hn⟩

theorem errorFrame_cleanup (db : Database) (t : Nat) :
    ErrorFrame db (cleanupExpiredReservationsLocked db t) t := by
  refine ⟨rfl, rfl, rfl, rfl, rfl, List.filter_sublist _, ?_⟩
  intro r hr hnot
  by_contra hle
  exact hnot (List.mem_filter.mpr ⟨hr, by simpa using Nat.le_of_not_lt hle⟩)

theorem eraseP_removed_eq_found (l : List SeatReservation)
    (pred : SeatReservation → Bool) (r0 : SeatReservation)
    (hf : l.find? pred = some r0) :
    ∀ r ∈ l, r ∉ l.eraseP pred → r = r0 := by
  have hr0mem := List.mem_of_find?_eq_some hf
  have hr0p := List.find?_some hf
  obtain ⟨a', l1, l2, hl1, hpa, hdecomp, herase⟩ := List.exists_of_eraseP hr0mem hr0p
  have hfind : l.find? pred = some a' := by
    rw [hdecomp, List.find?_append, List.find?_eq_none.mpr hl1,
      List.find?_cons_of_pos _ hpa]
    rfl
  have ha' : r0 = a' := Option.some.inj ((hf.symm.trans hfind))
  subst ha'
  intro r hr hnot
  rw [hdecomp] at hr
  rw [herase] at hnot
  rcases List.mem_append.mp hr with h1 | h1
  · exact absurd (List.mem_append.mpr (Or.inl h1)) hnot
  · rcases List.mem_cons.mp h1 with h2 | h2
    · exact h2
    · exact absurd (List.mem_append.mpr (Or.inr h2)) hnot

/-- C8: every operation that reports an error leaves the engine state
unchanged apart from lazy-expiry purges — no users, conferences,
bookings, queues or ids are touched, and only already-expired
reservations disappear.  (Totality — exactly one success value or error
kind — holds by construction: every operation is a total function into
`Except BookingError α × Database`.) -/
theorem error_frame (op : Op) (t : Nat) (db : Database) (e : BookingError)
    (h : opError op t db = some e) : ErrorFrame db (applyOp op t db) t := by
  cases op with
  | createUser name email =>
    cases hdup : db.Users.any (fun u => normEmail u.Email == normEmail email) with
    | true =>
      have hcn : applyOp (.createUser name email) t db = db := by
        simp only [applyOp, CreateUser]
        rw [if_pos hdup]
      rw [hcn]
      exact errorFrame_self db t
    | false =>
      exfalso
      simp [opError, CreateUser, hdup] at h
  | createBooking u c n =>
    cases hcf : findConf db.Conferences c with
    | none =>
      have hcn : applyOp (.createBooking u c n) t db = db := by
        simp only [applyOp, CreateBooking, hcf]
      rw [hcn]
      exact errorFrame_self db t
    | some conf =>
      by_cases hlt : conf.AvailableTickets < n
      · have hcn : applyOp (.createBooking u c n) t db = db := by
          simp only [applyOp, CreateBooking, hcf]
          rw [if_pos hlt]
        rw [hcn]
        exact errorFrame_self db t
      · exfalso
        simp [opError, CreateBooking, hcf, hlt] at h
  | createReservation u c n =>
    cases hcf : findConf (cleanupExpiredReservationsLocked db t).Conferences c with
    | none =>
      have hcn : applyOp (.createReservation u c n) t db
          = cleanupExpiredReservationsLocked db t := by
        simp only [applyOp, CreateReservation, hcf]
      rw [hcn]
      exact errorFrame_cleanup db t
    | some conf =>
      cases hdup : (cleanupExpiredReservationsLocked db t).Reservations.any (fun r =>
          r.UserID == u && r.ConferenceID == c && decide (t < r.ExpiresAt)) with
      | true =>
        have hcn : applyOp (.createReservation u c n) t db
            = cleanupExpiredReservationsLocked db t := by
          simp only [applyOp, CreateReservation, hcf]
          rw [if_pos hdup]
        rw [hcn]
        exact errorFrame_cleanup db t
      | false =>
        by_cases hlt : conf.AvailableTickets -
            (((cleanupExpiredReservationsLocked db t).Reservations.filter
              (fun r => r.ConferenceID == c)).map (fun r => r.TicketCount)).sum < n
        · have hcn : applyOp (.createReservation u c n) t db
              = cleanupExpiredReservationsLocked db t := by
            simp only [applyOp, CreateReservation, hcf]
            rw [if_neg (by simp [hdup]), if_pos hlt]
          rw [hcn]
          exact errorFrame_cleanup db t
        · exfalso
          simp [opError, CreateReservation, hcf, hdup, hlt] at h
  | confirmReservation id =>
    cases hf : db.Reservations.find? (fun r => r.ID == id) with
    | none =>
      have hcn : applyOp (.confirmReservation id) t db = db := by
        simp only [applyOp, ConfirmReservation, hf]
      rw [hcn]
      exact errorFrame_self db t
    | some r =>
      by_cases hexp : t > r.ExpiresAt
      · have hcn : applyOp (.confirmReservation id) t db
            = { db with Reservations := db.Reservations.eraseP (fun r => r.ID == id) } := by
          simp only [applyOp, ConfirmReservation, hf]
          rw [if_pos hexp]
        rw [hcn]
        refine ⟨rfl, rfl, rfl, rfl, rfl, List.eraseP_sublist _, ?_⟩
        intro r' hr' hnot
        have : r' = r := eraseP_removed_eq_found db.Reservations _ r hf r' hr' hnot
        rw [this]
        exact hexp
      · exfalso
        simp only [opError, ConfirmReservation, hf] at h
        rw [if_neg hexp] at h
        simp at h
  | cancelReservation id =>
    cases hany : db.Reservations.any (fun r => r.ID == id) with
    | true =>
      exfalso
      simp [opError, CancelReservation, hany] at h
    | false =>
      have hcn : applyOp (.cancelReservation id) t db = db := by
        simp only [applyOp, CancelReservation]
        rw [if_neg (by simp [hany])]
      rw [hcn]
      exact errorFrame_self db t
  | getReservation id =>
    cases hf : (cleanupExpiredReservationsLocked db t).Reservations.find?
        (fun r => r.ID == id) with
    | none =>
      have hcn : applyOp (.getReservation id) t db
          = cleanupExpiredReservationsLocked db t := by
        simp only [applyOp, GetReservation, hf]
      rw [hcn]
      exact errorFrame_cleanup db t
    | some r =>
      have hcn : applyOp (.getReservation id) t db
          = cleanupExpiredReservationsLocked db t := by
        simp only [applyOp, GetReservation, hf]
      rw [hcn]
      exact errorFrame_cleanup db t
  | enqueueWait u c n =>
    exfalso
    simp [opError] at h
  | claimNext u c =>
    cases hq : getQueue (cleanupExpiredReservationsLocked db t).WaitQueues c with
    | nil =>
      have hcn : applyOp (.claimNext u c) t db
          = cleanupExpiredReservationsLocked db t := by
        simp only [applyOp, ClaimNext, hq]
      rw [hcn]
      exact errorFrame_cleanup db t
    | cons head rest =>
      by_cases hh : head.UserID ≠ u
      · have hcn : applyOp (.claimNext u c) t db
            = cleanupExpiredReservationsLocked db t := by
          simp only [applyOp, ClaimNext, hq]
          rw [if_pos hh]
        rw [hcn]
        exact errorFrame_cleanup db t
      · cases hcf : findConf (cleanupExpiredReservationsLocked db t).Conferences c with
        | none =>
          have hcn : applyOp (.claimNext u c) t db
              = cleanupExpiredReservationsLocked db t := by
            simp only [applyOp, ClaimNext, hq, hcf]
            rw [if_neg hh]
          rw [hcn]
          exact errorFrame_cleanup db t
        | some conf =>
          by_cases hav : conf.AvailableTickets -
              (((cleanupExpiredReservationsLocked db t).Reservations.filter (fun r =>
                  r.ConferenceID == c && decide (t < r.ExpiresAt))).map
                (fun r => r.TicketCount)).sum < head.TicketCount
          · have hcn : applyOp (.claimNext u c) t db
                = cleanupExpiredReservationsLocked db t := by
              simp only [applyOp, ClaimNext, hq, hcf]
              rw [if_neg hh, if_pos hav]
            rw [hcn]
            exact errorFrame_cleanup db t
          · exfalso
            have hok : ∃ res, (ClaimNext db u c t).1 = .ok res := by
              simp only [ClaimNext, hq, hcf]
              rw [if_neg hh, if_neg hav]
              exact ⟨_, rfl⟩
            obtain ⟨res, hok⟩ := hok
            simp only [opError] at h
            rw [hok] at h
            cases h

/-- Witness for `error_frame`: the failed direct booking of 200 tickets
of conference 1 (only 100 exist) leaves the whole state unchanged. -/
theorem error_frame_witness :
    ErrorFrame initialDatabase
      (applyOp (.createBooking 7 1 200) 0 initialDatabase) 0 :=
  error_frame (.createBooking 7 1 200) 0 initialDatabase
    .insufficientInventory (by decide)

/-! ## No requester-existence validation (C9) -/

/-- C9: neither `CreateBooking` nor `CreateReservation` ever consults the
user table: for **every** requester id `u` — the hypothesis states that
`u` names no stored requester — booking succeeds whenever the conference
exists and has enough tickets, and reservation succeeds whenever the
conference exists, no duplicate-active hold exists (vacuous for an
unknown requester) and effective availability suffices; the produced
record is owned by the nonexistent requester and no `NotFound` is raised
for it. -/
theorem no_requester_validation (db : Database) (u c : Nat) (n : Int) (t : Nat)
    (hu : ∀ w ∈ db.Users, w.ID ≠ u) :
    (∀ conf, findConf db.Conferences c = some conf →
      ¬(conf.AvailableTickets < n) →
      ∃ b db2, CreateBooking db u c n t = (.ok b, db2) ∧ b.UserID = u) ∧
    (∀ conf, findConf db.Conferences c = some conf →
      (∀ r ∈ db.Reservations, ¬(r.UserID = u ∧ r.ConferenceID = c ∧ t < r.ExpiresAt)) →
      ¬(conf.AvailableTickets - postPurgeSum db c t < n) →
      ∃ res db2, CreateReservation db u c n t = (.ok res, db2) ∧ res.UserID = u) := by
  constructor
  · intro conf hconf hav
    simp only [CreateBooking, hconf]
    rw [if_neg hav]
    exact ⟨_, _, rfl, rfl⟩
  · intro conf hconf hnodup hav
    have hc' : findConf (cleanupExpiredReservationsLocked db t).Conferences c
        = some conf := hconf
    have hany : ((cleanupExpiredReservationsLocked db t).Reservations.any (fun r =>
        r.UserID == u && r.ConferenceID == c && decide (t < r.ExpiresAt))) = false := by
      rw [List.any_eq_false]
      intro r hr
      have hmem : r ∈ db.Reservations := List.mem_of_mem_filter hr
      have hn := hnodup r hmem
      simp only [Bool.and_eq_true, beq_iff_eq, decide_eq_true_eq, not_and]
      intro h1 h2
      exact hn ⟨h1.1, h1.2, h2⟩
    simp only [CreateReservation, hc', hany, Bool.false_eq_true, if_false]
    rw [postPurgeSum_eq]
    rw [if_neg hav]
    exact ⟨_, _, rfl, rfl⟩

/-- Witness for `no_requester_validation`: requester id 999 names no
stored user (the seed catalog has none), yet both the direct booking and
the reservation succeed, owned by 999. -/
theorem no_requester_validation_witness :
    (∃ b db2, CreateBooking initialDatabase 999 1 1 0 = (.ok b, db2) ∧ b.UserID = 999) ∧
    (∃ res db2, CreateReservation initialDatabase 999 1 1 0 = (.ok res, db2) ∧
      res.UserID = 999) :=
  ⟨(no_requester_validation initialDatabase 999 1 1 0 (by decide)).1
    { ID := 1, Name := "Go Conference 2024", Location := "San Francisco",
      TotalTickets := 100, AvailableTickets := 100, Price := 29999/100, Date := 0 }
    rfl (by decide),
   (no_requester_validation initialDatabase 999 1 1 0 (by decide)).2
    { ID := 1, Name := "Go Conference 2024", Location := "San Francisco",
      TotalTickets := 100, AvailableTickets := 100, Price := 29999/100, Date := 0 }
    rfl (by decide) (by decide)⟩

/-! ## Email normalisation and duplicate contacts (C10) -/

/-- C10: `CreateUser` stores and returns the normalised contact — the
created record's email equals the input lowercased and
whitespace-trimmed — and duplicate detection compares normalised forms:
a second input whose normalised form matches a stored (already
normalised) contact is rejected with `DuplicateContact`; concretely,
`" Test@Example.com "` followed by `"test@example.com"` collides. -/
theorem email_normalization :
    (∀ (db : Database) (name email : String) (t : Nat) (u : User) (db2 : Database),
      CreateUser db name email t = (.ok u, db2) →
      u.Email = normEmail email ∧ u ∈ db2.Users) ∧
    (∀ (db : Database) (name email : String) (t : Nat),
      (∃ w ∈ db.Users, normEmail w.Email = normEmail email) →
      (CreateUser db name email t).1 = .error .duplicateContact) ∧
    (∀ (db : Database) (n1 e1 n2 e2 : String) (t1 t2 : Nat) (u : User)
      (db2 : Database),
      CreateUser db n1 e1 t1 = (.ok u, db2) → normEmail e2 = normEmail u.Email →
      (CreateUser db2 n2 e2 t2).1 = .error .duplicateContact) ∧
    (CreateUser (CreateUser initialDatabase "A" " Test@Example.com " 0).2
      "B" "test@example.com" 1).1 = .error .duplicateContact := by
  have hok : ∀ (db : Database) (name email : String) (t : Nat) (u : User)
      (db2 : Database), CreateUser db name email t = (.ok u, db2) →
      u.Email = normEmail email ∧ u ∈ db2.Users ∧
      db2.Users = db.Users ++ [u] := by
    intro db name email t u db2 heq
    simp only [CreateUser] at heq
    by_cases hdup : (db.Users.any (fun w => normEmail w.Email == normEmail email)) = true
    · rw [if_pos hdup] at heq
      exact absurd (congrArg Prod.fst heq) (by simp)
    · rw [if_neg hdup] at heq
      have h1 := congrArg Prod.fst heq
      have h2 := congrArg Prod.snd heq
      simp only at h1 h2
      have hu : u = { ID := db.nextId, Name := name,
                      Email := normEmail email, Created := t } :=
        (Except.ok.inj h1).symm
      subst h2
      subst hu
      exact ⟨rfl, List.mem_append.mpr (Or.inr (List.mem_singleton.mpr rfl)), rfl⟩
  have hdup : ∀ (db : Database) (name email : String) (t : Nat),
      (∃ w ∈ db.Users, normEmail w.Email = normEmail email) →
      (CreateUser db name email t).1 = .error .duplicateContact := by
    intro db name email t ⟨w, hw, hwe⟩
    have hany : (db.Users.any (fun w => normEmail w.Email == normEmail email)) = true :=
      List.any_eq_true.mpr ⟨w, hw, by simpa using hwe⟩
    simp only [CreateUser]
    rw [if_pos hany]
  refine ⟨fun db name email t u db2 heq => ⟨(hok db name email t u db2 heq).1,
    (hok db name email t u db2 heq).2.1⟩, hdup, ?_, ?_⟩
  · intro db n1 e1 n2 e2 t1 t2 u db2 heq hnorm
    apply hdup
    exact ⟨u, (hok db n1 e1 t1 u db2 heq).2.1, hnorm.symm⟩
  · apply hdup
    refine ⟨{ ID := 0, Name := "A",
              Email := normEmail " Test@Example.com ", Created := 0 }, ?_, ?_⟩
    · exact List.mem_append.mpr (Or.inr (List.mem_singleton.mpr rfl))
    · decide

/-- Witness for `email_normalization`: the stored record for input
`" Test@Example.com "` carries email `"test@example.com"`, and the
differently-cased second input collides. -/
theorem email_normalization_witness :
    ((CreateUser initialDatabase "A" " Test@Example.com " 0).2.Users.map
      (fun u => u.Email)) = ["test@example.com"] ∧
    (CreateUser (CreateUser initialDatabase "A" " Test@Example.com " 0).2
      "B" "test@example.com" 1).1 = .error .duplicateContact :=
  ⟨by decide, email_normalization.2.2.2⟩
